/-
Verification development for the `language_changer_api` translating reverse
proxy (Python/FastAPI).  The Python sources are shallowly embedded as pure
Lean functions:

* JSON values (Python dicts/lists/scalars as produced by `response.json()`)
  are the inductive `Json`; Python dicts are association lists preserving
  insertion order (keys unique in every dict produced by the program).
* In-place mutation (`node[key] = ...`, `dict.pop`, cache updates) is
  modelled by returning the updated value / state.
* I/O results (the MongoDB fetch, the upstream call) enter as explicit
  parameters: `Option` for a fetch that may raise, an exception inductive
  for the `httpx` error hierarchy.
* CPython string helpers (`str.lower`, `str.strip`, `str.split`,
  truthiness, `str()`) are modelled by the `py*` functions below, faithful
  on the ASCII range the program handles.
-/
import Mathlib

set_option linter.unusedVariables false

/-- JSON tree: the dynamic values the proxy rewrites.  Python dicts are
ordered association lists with string keys. -/
inductive Json where
  | null
  | bool (b : Bool)
  | num (n : Int)
  | str (s : String)
  | arr (items : List Json)
  | obj (fields : List (String × Json))

/-- Python `d.get(k)` on an association-list dict: first binding wins. -/
def dictGet? {α : Type} (fields : List (String × α)) (k : String) : Option α :=
  match fields with
  | [] => none
  | (k2, v) :: rest => if k2 = k then some v else dictGet? rest k

/-- Python `d.get(k, default)`. -/
def dictGetD {α : Type} (fields : List (String × α)) (k : String) (d : α) : α :=
  (dictGet? fields k).getD d

/-- Python `k in d` (exact, case-sensitive key membership). -/
def dictContains {α : Type} (fields : List (String × α)) (k : String) : Bool :=
  fields.any (fun p => p.1 == k)

/-- Python `d[k] = v`: overwrite in place if the key exists (keeping its
position, as CPython dicts do), otherwise append. -/
def dictSet {α : Type} (fields : List (String × α)) (k : String) (v : α) :
    List (String × α) :=
  match fields with
  | [] => [(k, v)]
  | (k2, v2) :: rest =>
      if k2 = k then (k, v) :: rest else (k2, v2) :: dictSet rest k v

/-- Python `d.pop(k, None)`, value-side: the dict with the key removed. -/
def dictRemove {α : Type} (fields : List (String × α)) (k : String) :
    List (String × α) :=
  fields.filter (fun p => !(p.1 == k))

/-- CPython truthiness of a JSON-shaped value (`bool(x)`). -/
def pyTruthy : Json → Bool
  | Json.null => false
  | Json.bool b => b
  | Json.num n => n != 0
  | Json.str s => s ≠ ""
  | Json.arr items => !items.isEmpty
  | Json.obj fields => !fields.isEmpty

/-- Truthiness of a value that may be absent (Python `None` when the key
is missing). -/
def optTruthy : Option Json → Bool
  | none => false
  | some j => pyTruthy j

/-- Python `a or b`: `a` if truthy, else `b` (missing dict keys read as
`None`, i.e. `Json.null`). -/
def pyOr (a b : Json) : Json := if pyTruthy a then a else b

/-- Python `d.get(k)` where an absent key yields `None`. -/
def getJ (fields : List (String × Json)) (k : String) : Json :=
  (dictGet? fields k).getD Json.null

/-- CPython `str.lower` on one character (ASCII range). -/
def pyLowerChar (c : Char) : Char :=
  if 'A' ≤ c ∧ c ≤ 'Z' then Char.ofNat (c.toNat + 32) else c

/-- CPython `str.upper` on one character (ASCII range). -/
def pyUpperChar (c : Char) : Char :=
  if 'a' ≤ c ∧ c ≤ 'z' then Char.ofNat (c.toNat - 32) else c

/-- CPython `str.lower` (ASCII range). -/
def pyLower (s : String) : String := String.mk (s.data.map pyLowerChar)

/-- CPython `str.upper` (ASCII range). -/
def pyUpper (s : String) : String := String.mk (s.data.map pyUpperChar)

/-- CPython whitespace test used by `str.strip`. -/
def pyIsSpace (c : Char) : Bool :=
  [' ', '\t', '\n', '\r', Char.ofNat 11, Char.ofNat 12].contains c

/-- CPython `str.strip()`: drop leading and trailing whitespace. -/
def pyStrip (s : String) : String :=
  String.mk (((s.data.dropWhile pyIsSpace).reverse.dropWhile pyIsSpace).reverse)

def pySplitAux (sep : Char) : List Char → List Char → List String
  | [], acc => [String.mk acc.reverse]
  | c :: rest, acc =>
      if c = sep then String.mk acc.reverse :: pySplitAux sep rest []
      else pySplitAux sep rest (c :: acc)

/-- CPython `s.split(sep)` for a one-character separator: every occurrence
splits, empty pieces are kept (`"".split(".") == [""]`). -/
def pySplit (s : String) (sep : Char) : List String := pySplitAux sep s.data []

mutual
/-- CPython `repr` of a JSON-shaped value, as used by `str` on containers
(string escaping inside `repr` is not modelled; no rule in this repository
stringifies a container). -/
def pyRepr : Json → String
  | Json.null => "None"
  | Json.bool true => "True"
  | Json.bool false => "False"
  | Json.num n => toString n
  | Json.str s => "'" ++ s ++ "'"
  | Json.arr items => "[" ++ pyReprList items ++ "]"
  | Json.obj fields => "\x7b" ++ pyReprFields fields ++ "\x7d"
def pyReprList : List Json → String
  | [] => ""
  | [x] => pyRepr x
  | x :: xs => pyRepr x ++ ", " ++ pyReprList xs
def pyReprFields : List (String × Json) → String
  | [] => ""
  | [(k, v)] => "'" ++ k ++ "': " ++ pyRepr v
  | (k, v) :: xs => "'" ++ k ++ "': " ++ pyRepr v ++ ", " ++ pyReprFields xs
end

/-- CPython `str(x)` on a JSON-shaped value. -/
def pyStr : Json → String
  | Json.str s => s
  | v => pyRepr v

namespace JSONTranslator

/-- One translation rule, as built by the proxy route:
`{"path": path, "replace": value}` (the route always supplies a string
path, so the `isinstance(path, str)` split in `_apply_rules` always
takes the string branch). -/
structure Rule where
  path : String
  replace : Json

/-- `JSONTranslator._replace_value`: mapping replacement with `"*"`
default, or unconditional literal replacement. -/
def replace_value (original : Json) (replace : Json) : Json :=
  match replace with
  | Json.obj fields =>
      match dictGet? fields (pyStr original) with
      | some v => v
      | none =>
          match dictGet? fields "*" with
          | some v => v
          | none => original
  | _ => replace

mutual
/-- `JSONTranslator._apply_rule` (with `_apply_rule_to_list` and
`_apply_rule_to_dict` inlined as the `arr` / `obj` arms).  In-place
mutation of `node` is modelled by returning the rewritten node.
Note the first arm: with an empty segment list the Python method
`return`s without touching the node. -/
def apply_rule : Json → List String → Json → Json
  | node, [], _ => node
  | Json.arr items, current :: remaining, replace =>
      if current = "*" then Json.arr (apply_rule_each items remaining replace)
      else Json.arr (apply_rule_each items (current :: remaining) replace)
  | Json.obj fields, current :: remaining, replace =>
      if current = "*" then Json.obj (apply_wildcard_fields fields remaining replace)
      else if dictContains fields current then
        Json.obj (apply_key_fields fields current remaining replace)
      else Json.obj fields
  | node, _ :: _, _ => node
termination_by structural n _ _ => n
/-- Body of the two `for item in node` loops of `_apply_rule_to_list`:
recurse into every element with the given segment list. -/
def apply_rule_each : List Json → List String → Json → List Json
  | [], _, _ => []
  | x :: xs, segs, replace =>
      apply_rule x segs replace :: apply_rule_each xs segs replace
termination_by structural l _ _ => l
/-- `JSONTranslator._apply_wildcard_to_dict`: for every key, recurse if
segments remain, else replace that key's value directly. -/
def apply_wildcard_fields : List (String × Json) → List String → Json → List (String × Json)
  | [], _, _ => []
  | (k, v) :: rest, [], replace =>
      (k, replace_value v replace) :: apply_wildcard_fields rest [] replace
  | (k, v) :: rest, seg :: segs, replace =>
      (k, apply_rule v (seg :: segs) replace) :: apply_wildcard_fields rest (seg :: segs) replace
termination_by structural l _ _ => l
/-- `JSONTranslator._apply_specific_key`: rewrite the binding of `key`
(unique in a Python dict): recurse if segments remain, else replace. -/
def apply_key_fields : List (String × Json) → String → List String → Json → List (String × Json)
  | [], _, _, _ => []
  | (k, v) :: rest, key, remaining, replace =>
      if k = key then
        (k, match remaining with
            | [] => replace_value v replace
            | seg :: segs => apply_rule v (seg :: segs) replace)
          :: apply_key_fields rest key remaining replace
      else (k, v) :: apply_key_fields rest key remaining replace
termination_by structural l _ _ _ => l
end

/-- `JSONTranslator._apply_rules`: every rule in order, on the same node
(`if not path: continue` skips empty paths). -/
def apply_rules (rules : List Rule) (node : Json) : Json :=
  rules.foldl
    (fun n rule =>
      if rule.path = "" then n
      else apply_rule n (pySplit rule.path '.') rule.replace)
    node

/-- `isinstance(data, (dict, list))`. -/
def isContainer : Json → Bool
  | Json.arr _ => true
  | Json.obj _ => true
  | _ => false

mutual
/-- `copy.deepcopy` on a JSON tree: a structural copy of every node. -/
def deepcopy : Json → Json
  | Json.null => Json.null
  | Json.bool b => Json.bool b
  | Json.num n => Json.num n
  | Json.str s => Json.str s
  | Json.arr items => Json.arr (deepcopyList items)
  | Json.obj fields => Json.obj (deepcopyFields fields)
def deepcopyList : List Json → List Json
  | [] => []
  | x :: xs => deepcopy x :: deepcopyList xs
def deepcopyFields : List (String × Json) → List (String × Json)
  | [] => []
  | (k, v) :: xs => (k, deepcopy v) :: deepcopyFields xs
end

/-- `JSONTranslator.translate`: identity for an empty rule list or a
scalar; otherwise apply every rule to a deep copy of the data. -/
def translate (rules : List Rule) (data : Json) : Json :=
  if rules.isEmpty || !(isContainer data) then data
  else apply_rules rules (deepcopy data)

end JSONTranslator

namespace TranslationService

/-- Per-language rule set as stored in the cache: `path ↦ replacementSpec`. -/
abbrev RuleMap := List (String × Json)

/-- The cache snapshot: `languageCode ↦ RuleMap`. -/
abbrev LangMap := List (String × RuleMap)

/-- One document of the MongoDB `translations` collection as projected by
`collection.find({}, {"languageId": 1, "translations": 1, "_id": 0})`:
either field may be absent (or `None`, not distinguished here). -/
structure MongoDoc where
  languageId : Option String
  translations : Option RuleMap

/-- `TranslationService` mutable state: `_cache` and `_last_loaded`
(timestamps are seconds; `datetime.min` is 0). -/
structure CacheState where
  cache : LangMap
  lastLoaded : Nat

/-- The cursor loop of `_load_translations`: keep documents whose
`languageId` is truthy, defaulting a missing/falsy `translations` to `{}`
(an association list with a falsy `RuleMap` value is already `[]`). -/
def build_languages (docs : List MongoDoc) : LangMap :=
  docs.foldl
    (fun languages doc =>
      match doc.languageId with
      | some lang_id =>
          if lang_id ≠ "" then dictSet languages lang_id (doc.translations.getD [])
          else languages
      | none => languages)
    []

/-- `TranslationService._load_translations`.  The MongoDB fetch enters as
`fetched : Option (List MongoDoc)`; `none` models the adapter raising,
which the method catches: it logs and leaves the cache as it is (the
`if not self._cache: self._cache = {}` arm rewrites an empty cache to the
empty dict).  On success the snapshot and `_last_loaded` are replaced. -/
def load_translations (st : CacheState) (fetched : Option (List MongoDoc))
    (now : Nat) : CacheState :=
  match fetched with
  | some docs => { cache := build_languages docs, lastLoaded := now }
  | none => { st with cache := if st.cache.isEmpty then [] else st.cache }

/-- `TranslationService._should_refresh`: `age > ttl` (strict). -/
def should_refresh (ttl : Nat) (st : CacheState) (now : Nat) : Bool :=
  ttl < now - st.lastLoaded

/-- `TranslationService.get_translations`: refresh when the cache is empty
or stale, then look the language up verbatim (`self._cache.get(language, {})`
— no normalization), defaulting to the empty rule set. -/
def get_translations (ttl : Nat) (st : CacheState) (fetched : Option (List MongoDoc))
    (now : Nat) (language : String) : CacheState × RuleMap :=
  let st2 := if st.cache.isEmpty || should_refresh ttl st now
             then load_translations st fetched now else st
  (st2, dictGetD st2.cache language [])

/-- Return value of `TranslationService.reload`. -/
structure ReloadResult where
  status : String
  languages_loaded : Nat
  languages : List String

/-- `TranslationService.reload`: unconditionally call `_load_translations`
(which itself swallows adapter failures) and report whatever the cache now
holds, always with status `"success"`. -/
def reload (st : CacheState) (fetched : Option (List MongoDoc)) (now : Nat) :
    CacheState × ReloadResult :=
  let st2 := load_translations st fetched now
  (st2, { status := "success",
          languages_loaded := st2.cache.length,
          languages := st2.cache.map Prod.fst })

/-- `TranslationService.get_available_languages`. -/
def get_available_languages (ttl : Nat) (st : CacheState)
    (fetched : Option (List MongoDoc)) (now : Nat) : CacheState × List String :=
  let st2 := if st.cache.isEmpty || should_refresh ttl st now
             then load_translations st fetched now else st
  (st2, st2.cache.map Prod.fst)

end TranslationService

namespace Handler

/-- `ReloadResponse` schema of the admin endpoint. -/
structure ReloadResponse where
  status : String
  message : Option String
  languages_loaded : Option Nat

/-- `POST /reload-translations` (handler.py).  `translation_service.reload`
is total in the model — exactly as in the source, where every adapter
failure is already caught inside `_load_translations` — so the endpoint's
`except` arm is unreachable and the response is always the success one. -/
def reload_translations (st : TranslationService.CacheState)
    (fetched : Option (List TranslationService.MongoDoc)) (now : Nat) :
    TranslationService.CacheState × ReloadResponse :=
  let r := TranslationService.reload st fetched now
  (r.1, { status := "success",
          message := some ("Loaded " ++ toString r.2.languages_loaded ++ " languages"),
          languages_loaded := some r.2.languages_loaded })

end Handler

namespace ProxyService

/-- The `payload.get("language") or ... or payload.get("languageId")`
chain shared verbatim by both language extractors. -/
def lang_chain (fields : List (String × Json)) : Json :=
  pyOr (getJ fields "language")
    (pyOr (getJ fields "lang")
      (pyOr (getJ fields "locale") (getJ fields "languageId")))

/-- `proxy_service.extract_language`: body only.  Falsy or non-dict
payloads yield `None`; a non-string winner of the chain yields `None`;
a string winner is lowercased and stripped. -/
def extract_language (payload : Option Json) : Option String :=
  match payload with
  | some (Json.obj fields) =>
      if fields.isEmpty then none
      else
        match lang_chain fields with
        | Json.str s => some (pyStrip (pyLower s))
        | _ => none
  | _ => none

/-- `proxy_service.process_payload_params`.  `json.loads` is the Python
standard library, external to this repository, so it enters as the
`jsonLoads` parameter (`none` models a parse exception, which the source
catches and logs).  Returns `(cleaned_payload, query_params, schema)`;
the two `pop` calls are modelled on the value side by `dictRemove`. -/
def process_payload_params (jsonLoads : String → Option Json)
    (payload : Option Json) :
    Option Json × List (String × Json) × Option Json :=
  match payload with
  | some (Json.obj fields) =>
      if fields.isEmpty then (payload, [], none)
      else
        let schema := dictGet? fields "schema"
        let params_str := dictGet? fields "params"
        let cleaned := dictRemove (dictRemove fields "schema") "params"
        let qp0 : List (String × Json) :=
          if optTruthy schema then [("schema", schema.getD Json.null)] else []
        let qp : List (String × Json) :=
          if optTruthy params_str then
            match params_str.getD Json.null with
            | Json.str s =>
                match jsonLoads s with
                | some (Json.obj d) => d.foldl (fun acc kv => dictSet acc kv.1 kv.2) qp0
                | _ => qp0
            | Json.obj d => d.foldl (fun acc kv => dictSet acc kv.1 kv.2) qp0
            | _ => qp0
          else qp0
        (some (Json.obj cleaned), qp, schema)
  | _ => (payload, [], none)

/-- Lines 87–88 of the `/proxy` route: the language used for translation
is extracted from the cleaned body only — `req.params` is available to
the route but never consulted for the language. -/
def request_language (jsonLoads : String → Option Json)
    (params : Option (List (String × Json))) (payload : Option Json) :
    Option String :=
  extract_language (process_payload_params jsonLoads payload).1

/-- Lines 124–127 of the `/proxy` route: the `json=` body of the outbound
request — present only when the cleaned payload is not `None` and the
(uppercased) method is outside `{GET, HEAD, OPTIONS}`. -/
def proxy_forwarded_body (jsonLoads : String → Option Json) (method : String)
    (payload : Option Json) : Option Json :=
  let cleaned := (process_payload_params jsonLoads payload).1
  if cleaned.isSome && !(["GET", "HEAD", "OPTIONS"].contains (pyUpper method))
  then cleaned else none

/-- The `httpx` exceptions the route can catch, with the hierarchy fact
that matters: `TimeoutException` IS a `RequestError` (it derives from
`TransportError`), while `HTTPStatusError` is not. -/
inductive HttpxException where
  | httpStatusError (status : Nat) (text : String)
  | timeoutException (msg : String)
  | otherRequestError (msg : String)

def isHTTPStatusError : HttpxException → Bool
  | HttpxException.httpStatusError _ _ => true
  | _ => false

def isTimeoutException : HttpxException → Bool
  | HttpxException.timeoutException _ => true
  | _ => false

/-- `isinstance(e, httpx.RequestError)`: true for timeouts too. -/
def isRequestError : HttpxException → Bool
  | HttpxException.timeoutException _ => true
  | HttpxException.otherRequestError _ => true
  | HttpxException.httpStatusError _ _ => false

/-- Lines 135–152 of the `/proxy` route: the `except` chain, tried in
source order — `HTTPStatusError` passes the upstream status through,
`TimeoutException` maps to 504, any remaining `RequestError` to 502. -/
def proxy_request_error_status (e : HttpxException) : Option Nat :=
  if isHTTPStatusError e then
    match e with
    | HttpxException.httpStatusError status _ => some status
    | _ => none
  else if isTimeoutException e then some 504
  else if isRequestError e then some 502
  else none

end ProxyService

namespace ProxyHandler

/-- `ProxyHandler.extract_language`: query params first, body second; a
non-string (or falsy-everywhere) chain winner in the params falls through
to the body.  (This function is not invoked by the `/proxy` route.) -/
def extract_language (params : Option (List (String × Json)))
    (payload : Option Json) : Option String :=
  let fromParams : Option String :=
    match params with
    | some fields =>
        if fields.isEmpty then none
        else
          match ProxyService.lang_chain fields with
          | Json.str s => some (pyStrip (pyLower s))
          | _ => none
    | none => none
  match fromParams with
  | some s => some s
  | none =>
      match payload with
      | some (Json.obj fields) =>
          if fields.isEmpty then none
          else
            match ProxyService.lang_chain fields with
            | Json.str s => some (pyStrip (pyLower s))
            | _ => none
      | _ => none

/-- `ProxyHandler.inject_auth_token`: with a truthy configured token
(taken here as a parameter; `Settings` declares no `login_token` field,
the lookup would only succeed if the environment supplies one) and no
exact-case `"Authorization"` key, set `headers["login-token"]`. -/
def inject_auth_token (login_token : String)
    (headers : Option (List (String × String))) : List (String × String) :=
  let hs := match headers with
            | none => []
            | some h => h
  if login_token = "" then hs
  else if dictContains hs "Authorization" then hs
  else dictSet hs "login-token" login_token

end ProxyHandler

/-- A failing fetch leaves the whole cache state untouched (the
`if not self._cache` arm of the handler rewrites `[]` to `[]`). -/
theorem load_translations_none (st : TranslationService.CacheState) (now : Nat) :
    TranslationService.load_translations st none now = st := by
  obtain ⟨cache, last⟩ := st
  cases cache <;> rfl

/-- The element loop of `_apply_rule_to_list` is a map. -/
theorem apply_rule_each_map (items : List Json) (segs : List String) (r : Json) :
    JSONTranslator.apply_rule_each items segs r =
      items.map (fun it => JSONTranslator.apply_rule it segs r) := by
  induction items with
  | nil => rfl
  | cons x xs ih => simp [JSONTranslator.apply_rule_each, ih]

mutual
/-- `copy.deepcopy` yields a value equal (as a value) to its input. -/
theorem deepcopy_eq : (v : Json) → JSONTranslator.deepcopy v = v
  | Json.null => rfl
  | Json.bool _ => rfl
  | Json.num _ => rfl
  | Json.str _ => rfl
  | Json.arr items => congrArg Json.arr (deepcopyList_eq items)
  | Json.obj fields => congrArg Json.obj (deepcopyFields_eq fields)
theorem deepcopyList_eq : (l : List Json) → JSONTranslator.deepcopyList l = l
  | [] => rfl
  | x :: xs => by rw [JSONTranslator.deepcopyList, deepcopy_eq x, deepcopyList_eq xs]
theorem deepcopyFields_eq : (l : List (String × Json)) → JSONTranslator.deepcopyFields l = l
  | [] => rfl
  | (k, v) :: xs => by rw [JSONTranslator.deepcopyFields, deepcopy_eq v, deepcopyFields_eq xs]
end

/-- Removing an absent key is the identity. -/
theorem dictRemove_of_not_contains {α : Type} (fields : List (String × α))
    (k : String) (h : dictContains fields k = false) : dictRemove fields k = fields := by
  induction fields with
  | nil => rfl
  | cons p rest ih =>
      obtain ⟨k2, v2⟩ := p
      have h2 : ((k2 == k) || dictContains rest k) = false := h
      rw [Bool.or_eq_false_iff] at h2
      have ih2 := ih h2.2
      simp only [dictRemove] at ih2
      simp [dictRemove, List.filter_cons, h2.1, ih2]

/-- Setting a key makes it readable. -/
theorem dictGet?_dictSet_self {α : Type} (fields : List (String × α)) (k : String) (v : α) :
    dictGet? (dictSet fields k v) k = some v := by
  induction fields with
  | nil => simp [dictSet, dictGet?]
  | cons p rest ih =>
      obtain ⟨k2, v2⟩ := p
      by_cases h : k2 = k
      · simp [dictSet, dictGet?, h]
      · simp [dictSet, dictGet?, h, ih]

/-- Setting one key does not change the lookup of any other key. -/
theorem dictGet?_dictSet_ne {α : Type} (fields : List (String × α)) (k k2 : String) (v : α)
    (h : ¬ k2 = k) : dictGet? (dictSet fields k v) k2 = dictGet? fields k2 := by
  have h2 : ¬ k = k2 := fun hh => h hh.symm
  induction fields with
  | nil => simp [dictSet, dictGet?, h2]
  | cons p rest ih =>
      obtain ⟨k3, v3⟩ := p
      by_cases h3 : k3 = k
      · subst h3
        simp [dictSet, dictGet?, h2]
      · simp [dictSet, dictGet?, h3, ih]

/-- C1 (counterexample): with a populated snapshot and a failing rule
store, the explicit `reload()` reports status `"success"` (also through
the admin endpoint) and keeps the old state — no error reaches the
caller, contradicting the claim that the failure is surfaced. -/
theorem reload_failure_reports_success_cex :
    (TranslationService.reload ⟨[("en", [("title", Json.str "T")])], 50⟩ none 400).2.status
      = "success" ∧
    (TranslationService.reload ⟨[("en", [("title", Json.str "T")])], 50⟩ none 400).1
      = ⟨[("en", [("title", Json.str "T")])], 50⟩ ∧
    (Handler.reload_translations ⟨[("en", [("title", Json.str "T")])], 50⟩ none 400).2.status
      = "success" ∧
    ("success" : String) ≠ "error" :=
  ⟨rfl, rfl, rfl, by decide⟩

/-- C1 (amended): for every rule-store failure during an explicit
`reload()`, the previous snapshot is kept and the reported count and
language list reflect the previous snapshot — but the failure is
swallowed (status is always `"success"`), exactly like the background
refresh path. -/
theorem reload_on_failure_swallows (st : TranslationService.CacheState) (now : Nat) :
    TranslationService.reload st none now =
      (st, { status := "success", languages_loaded := st.cache.length,
             languages := st.cache.map Prod.fst }) := by
  simp only [TranslationService.reload, load_translations_none]

/-- C2 (counterexample): rule `("a.*", 0)` on `{"a": [1, 2]}` leaves the
list unchanged — the elements are not replaced as the claim states. -/
theorem star_terminal_on_scalar_list_cex :
    JSONTranslator.translate [⟨"a.*", Json.num 0⟩]
        (Json.obj [("a", Json.arr [Json.num 1, Json.num 2])]) =
      Json.obj [("a", Json.arr [Json.num 1, Json.num 2])] ∧
    Json.obj [("a", Json.arr [Json.num 1, Json.num 2])] ≠
      Json.obj [("a", Json.arr [Json.num 0, Json.num 0])] :=
  ⟨rfl, by simp⟩

/-- C2 (amended): when the remaining segment list becomes empty at a
node, the traversal returns without invoking the replacement rule (the
replacement fires only inside the dict handlers); consequently a rule
ending in `"*"` whose path reaches a list of scalars replaces nothing,
for every replacement spec. -/
theorem empty_segments_are_noop (node replace : Json) :
    JSONTranslator.apply_rule node [] replace = node ∧
    (∀ r : Json, JSONTranslator.translate [⟨"a.*", r⟩]
        (Json.obj [("a", Json.arr [Json.num 1, Json.num 2])]) =
      Json.obj [("a", Json.arr [Json.num 1, Json.num 2])]) := by
  refine ⟨?_, fun r => rfl⟩
  cases node <;> rfl

/-- C3 (counterexample): for query params `{"lang": "FR "}` and body
`{"language": "es"}`, the `/proxy` route's resolved language is `"es"`,
not `"fr"` — the query parameters are never consulted. -/
theorem route_language_ignores_query_params_cex :
    ProxyService.request_language (fun _ => none) (some [("lang", Json.str "FR ")])
        (some (Json.obj [("language", Json.str "es")])) = some "es" ∧
    (some "es" : Option String) ≠ some "fr" :=
  ⟨rfl, by simp⟩

/-- C3 (amended): the route resolves the language from the body only —
the result is independent of the query params — trying keys `language`,
`lang`, `locale`, `languageId` and normalizing (lowercase, strip);
`ProxyHandler.extract_language` does implement query-before-body priority
(returning `"fr"` on the claim's request) but is not invoked by the
route. -/
theorem route_language_from_body_only (jl : String → Option Json)
    (p q : Option (List (String × Json))) (payload : Option Json) :
    ProxyService.request_language jl p payload = ProxyService.request_language jl q payload ∧
    ProxyService.request_language jl p (some (Json.obj [("language", Json.str "es")]))
      = some "es" ∧
    ProxyHandler.extract_language (some [("lang", Json.str "FR ")])
        (some (Json.obj [("language", Json.str "es")])) = some "fr" :=
  ⟨rfl, rfl, rfl⟩

/-- C4 (counterexample): a POST body containing a `"schema"` key is not
forwarded unmodified — the key is popped before the body is attached. -/
theorem forwarded_body_modified_cex :
    ProxyService.proxy_forwarded_body (fun _ => none) "POST"
        (some (Json.obj [("schema", Json.str "s"), ("x", Json.num 1)])) =
      some (Json.obj [("x", Json.num 1)]) ∧
    (some (Json.obj [("x", Json.num 1)])) ≠
      some (Json.obj [("schema", Json.str "s"), ("x", Json.num 1)]) :=
  ⟨rfl, by simp⟩

/-- C4 (amended): the forwarded body is the inbound body with the
top-level keys `"schema"` and `"params"` popped; a dict body containing
neither key is forwarded unmodified for methods outside
`{GET, HEAD, OPTIONS}`, and the body is omitted entirely for methods in
that set or when there is no body. -/
theorem forwarded_body_after_key_removal (jl : String → Option Json)
    (method : String) (fields : List (String × Json)) (payload : Option Json)
    (h1 : (["GET", "HEAD", "OPTIONS"].contains (pyUpper method)) = false)
    (h2 : dictContains fields "schema" = false)
    (h3 : dictContains fields "params" = false) :
    ProxyService.proxy_forwarded_body jl method (some (Json.obj fields))
      = some (Json.obj fields) ∧
    ProxyService.proxy_forwarded_body jl "GET" payload = none ∧
    ProxyService.proxy_forwarded_body jl "HEAD" payload = none ∧
    ProxyService.proxy_forwarded_body jl "OPTIONS" payload = none ∧
    ProxyService.proxy_forwarded_body jl method none = none := by
  have hm : ¬pyUpper method = "GET" ∧ ¬pyUpper method = "HEAD" ∧ ¬pyUpper method = "OPTIONS" := by
    simpa using h1
  refine ⟨?_, ?_, ?_, ?_, rfl⟩
  · by_cases hfe : fields.isEmpty
    · simp [ProxyService.proxy_forwarded_body, ProxyService.process_payload_params, hfe, hm]
    · simp [ProxyService.proxy_forwarded_body, ProxyService.process_payload_params, hfe, hm,
        dictRemove_of_not_contains fields "schema" h2,
        dictRemove_of_not_contains fields "params" h3]
  · simp [ProxyService.proxy_forwarded_body, show pyUpper "GET" = "GET" from rfl]
  · simp [ProxyService.proxy_forwarded_body, show pyUpper "HEAD" = "HEAD" from rfl]
  · simp [ProxyService.proxy_forwarded_body, show pyUpper "OPTIONS" = "OPTIONS" from rfl]

/-- C4 (witness): the amended statement at a concrete input. -/
theorem forwarded_body_after_key_removal_witness :
    ((["GET", "HEAD", "OPTIONS"].contains (pyUpper "POST")) = false ∧
     dictContains [(("x" : String), Json.num 1)] "schema" = false ∧
     dictContains [(("x" : String), Json.num 1)] "params" = false) ∧
    (ProxyService.proxy_forwarded_body (fun _ => none) "POST"
        (some (Json.obj [("x", Json.num 1)])) = some (Json.obj [("x", Json.num 1)]) ∧
     ProxyService.proxy_forwarded_body (fun _ => none) "GET" (some (Json.str "b")) = none ∧
     ProxyService.proxy_forwarded_body (fun _ => none) "HEAD" (some (Json.str "b")) = none ∧
     ProxyService.proxy_forwarded_body (fun _ => none) "OPTIONS" (some (Json.str "b")) = none ∧
     ProxyService.proxy_forwarded_body (fun _ => none) "POST" none = none) :=
  ⟨⟨rfl, rfl, rfl⟩,
   forwarded_body_after_key_removal (fun _ => none) "POST" [("x", Json.num 1)]
     (some (Json.str "b")) rfl rfl rfl⟩

/-- C5: in the route's `except` chain a `TimeoutException` — although it
is an `httpx.RequestError` — is caught first and mapped to 504, while
the remaining transport faults (connection/DNS failures) map to 502. -/
theorem timeout_distinct_from_unreachable (m1 m2 : String) :
    ProxyService.proxy_request_error_status
        (ProxyService.HttpxException.timeoutException m1) = some 504 ∧
    ProxyService.proxy_request_error_status
        (ProxyService.HttpxException.otherRequestError m2) = some 502 ∧
    ProxyService.isRequestError (ProxyService.HttpxException.timeoutException m1) = true ∧
    (504 : Nat) ≠ 502 :=
  ⟨rfl, rfl, rfl, by decide⟩

/-- C6 (counterexample): with snapshot `{"FR": {...}}`, `get()` for
`"FR"` and for `"fr"` return different rule sets — the lookup does not
normalize, contradicting the claim. -/
theorem get_translations_case_sensitive_cex :
    (TranslationService.get_translations 300 ⟨[("FR", [("title", Json.str "X")])], 100⟩
        none 100 "FR").2 = [("title", Json.str "X")] ∧
    (TranslationService.get_translations 300 ⟨[("FR", [("title", Json.str "X")])], 100⟩
        none 100 "fr").2 = [] ∧
    ([("title", Json.str "X")] : TranslationService.RuleMap) ≠ [] :=
  ⟨rfl, rfl, by simp⟩

/-- C6 (amended): `get()` does not normalize the language code — the
lookup is an exact, case-sensitive match against the stored `languageId`
keys (normalization happens only in the request-side extractors), so two
codes differing in case can return different rule sets. -/
theorem get_translations_exact_key (R : TranslationService.RuleMap) (hR : R ≠ []) :
    (TranslationService.get_translations 300 ⟨[("FR", R)], 100⟩ none 100 "FR").2 = R ∧
    (TranslationService.get_translations 300 ⟨[("FR", R)], 100⟩ none 100 "fr").2 = [] ∧
    (TranslationService.get_translations 300 ⟨[("FR", R)], 100⟩ none 100 "FR").2 ≠
      (TranslationService.get_translations 300 ⟨[("FR", R)], 100⟩ none 100 "fr").2 := by
  refine ⟨rfl, rfl, ?_⟩
  intro h
  exact hR h

/-- C6 (witness): the amended statement at a concrete rule map. -/
theorem get_translations_exact_key_witness :
    ([(("title" : String), Json.str "X")] : TranslationService.RuleMap) ≠ [] ∧
    ((TranslationService.get_translations 300 ⟨[("FR", [("title", Json.str "X")])], 100⟩
        none 100 "FR").2 = [("title", Json.str "X")] ∧
     (TranslationService.get_translations 300 ⟨[("FR", [("title", Json.str "X")])], 100⟩
        none 100 "fr").2 = [] ∧
     (TranslationService.get_translations 300 ⟨[("FR", [("title", Json.str "X")])], 100⟩
        none 100 "FR").2 ≠
       (TranslationService.get_translations 300 ⟨[("FR", [("title", Json.str "X")])], 100⟩
        none 100 "fr").2) :=
  ⟨by simp, get_translations_exact_key [("title", Json.str "X")] (by simp)⟩

/-- C7: once the snapshot is stale, `get()` attempts a refresh; when the
fetch fails the whole previous state is kept and the previously cached
rule set of every language is returned unchanged. -/
theorem stale_refresh_failure_keeps_snapshot (ttl : Nat)
    (st : TranslationService.CacheState) (now : Nat) (lang : String)
    (h : TranslationService.should_refresh ttl st now = true) :
    TranslationService.get_translations ttl st none now lang =
      (st, dictGetD st.cache lang []) := by
  simp only [TranslationService.get_translations, h, Bool.or_true, if_true,
    load_translations_none]

/-- C7 (witness): the statement at a concrete stale state. -/
theorem stale_refresh_failure_keeps_snapshot_witness :
    TranslationService.should_refresh 300 ⟨[("en", [("t", Json.str "v")])], 0⟩ 301 = true ∧
    TranslationService.get_translations 300 ⟨[("en", [("t", Json.str "v")])], 0⟩ none 301 "en" =
      (⟨[("en", [("t", Json.str "v")])], 0⟩,
        dictGetD ([("en", [("t", Json.str "v")])] : TranslationService.LangMap) "en" []) :=
  ⟨rfl, stale_refresh_failure_keeps_snapshot 300 ⟨[("en", [("t", Json.str "v")])], 0⟩ 301 "en" rfl⟩

/-- C8: a non-wildcard segment encountered at a list broadcasts the
full, unconsumed segment list to every element; in particular
`("items.name", "X")` on `{"items": [{"name": "a"}, {"name": "b"}]}`
renames every item's `name` to `"X"`. -/
theorem list_transparent_to_concrete_segment (current : String)
    (remaining : List String) (replace : Json) (items : List Json)
    (h : ¬ current = "*") :
    JSONTranslator.apply_rule (Json.arr items) (current :: remaining) replace =
      Json.arr (items.map
        (fun it => JSONTranslator.apply_rule it (current :: remaining) replace)) ∧
    JSONTranslator.translate [⟨"items.name", Json.str "X"⟩]
        (Json.obj [("items", Json.arr
          [Json.obj [("name", Json.str "a")], Json.obj [("name", Json.str "b")]])]) =
      Json.obj [("items", Json.arr
        [Json.obj [("name", Json.str "X")], Json.obj [("name", Json.str "X")]])] := by
  refine ⟨?_, rfl⟩
  simp [JSONTranslator.apply_rule, h, apply_rule_each_map]

/-- C8 (witness): the statement at a concrete segment and list. -/
theorem list_transparent_to_concrete_segment_witness :
    (¬ ("name" : String) = "*") ∧
    (JSONTranslator.apply_rule (Json.arr [Json.obj [("name", Json.str "a")]])
        ["name"] (Json.str "X") =
      Json.arr ([Json.obj [("name", Json.str "a")]].map
        (fun it => JSONTranslator.apply_rule it ["name"] (Json.str "X"))) ∧
     JSONTranslator.translate [⟨"items.name", Json.str "X"⟩]
        (Json.obj [("items", Json.arr
          [Json.obj [("name", Json.str "a")], Json.obj [("name", Json.str "b")]])]) =
      Json.obj [("items", Json.arr
        [Json.obj [("name", Json.str "X")], Json.obj [("name", Json.str "X")]])]) :=
  ⟨by decide,
   list_transparent_to_concrete_segment "name" [] (Json.str "X")
     [Json.obj [("name", Json.str "a")]] (by decide)⟩

/-- C9: `translate` returns the value unchanged for an empty rule list or
a scalar input, and the deep copy it otherwise operates on is equal, as a
value, to the caller's input — in this value-semantics embedding the
caller's data is never mutated. -/
theorem translate_preserves_caller_value (rules : List JSONTranslator.Rule) (v : Json)
    (h : rules.isEmpty = true ∨ JSONTranslator.isContainer v = false) :
    JSONTranslator.translate rules v = v ∧ JSONTranslator.deepcopy v = v := by
  refine ⟨?_, deepcopy_eq v⟩
  unfold JSONTranslator.translate
  rcases h with h | h
  · simp [h]
  · simp [h]

/-- C9 (witness): the statement at an empty rule list and a scalar. -/
theorem translate_preserves_caller_value_witness :
    (([] : List JSONTranslator.Rule).isEmpty = true ∨
      JSONTranslator.isContainer (Json.num 3) = false) ∧
    (JSONTranslator.translate [] (Json.num 3) = Json.num 3 ∧
     JSONTranslator.deepcopy (Json.num 3) = Json.num 3) :=
  ⟨Or.inl rfl, translate_preserves_caller_value [] (Json.num 3) (Or.inl rfl)⟩

/-- C10: the auth-injection presence check is an exact, case-sensitive
match on `"Authorization"`: with a non-empty token and no exact-case
`"Authorization"` key (a lowercase `"authorization"` key does not count),
the injected header is `"login-token"`, and the `"Authorization"` entry
of the headers is never touched. -/
theorem inject_auth_token_exact_case (token : String) (hs : List (String × String))
    (htok : ¬ token = "") (hauth : dictContains hs "Authorization" = false) :
    ProxyHandler.inject_auth_token token (some hs) = dictSet hs "login-token" token ∧
    dictGet? (ProxyHandler.inject_auth_token token (some hs)) "login-token" = some token ∧
    dictGet? (ProxyHandler.inject_auth_token token (some hs)) "Authorization" =
      dictGet? hs "Authorization" := by
  have h1 : ProxyHandler.inject_auth_token token (some hs) = dictSet hs "login-token" token := by
    simp [ProxyHandler.inject_auth_token, htok, hauth]
  refine ⟨h1, ?_, ?_⟩
  · rw [h1, dictGet?_dictSet_self]
  · rw [h1, dictGet?_dictSet_ne]
    decide

/-- C10 (witness): the statement at a header map that has only the
lowercase `"authorization"` key. -/
theorem inject_auth_token_exact_case_witness :
    ((¬ ("tok" : String) = "") ∧
      dictContains [(("authorization" : String), ("Bearer x" : String))] "Authorization"
        = false) ∧
    (ProxyHandler.inject_auth_token "tok" (some [("authorization", "Bearer x")]) =
        dictSet [("authorization", "Bearer x")] "login-token" "tok" ∧
     dictGet? (ProxyHandler.inject_auth_token "tok" (some [("authorization", "Bearer x")]))
        "login-token" = some "tok" ∧
     dictGet? (ProxyHandler.inject_auth_token "tok" (some [("authorization", "Bearer x")]))
        "Authorization" = dictGet? [("authorization", "Bearer x")] "Authorization") :=
  ⟨⟨by decide, rfl⟩,
   inject_auth_token_exact_case "tok" [("authorization", "Bearer x")] (by decide) rfl⟩
